import Mathlib

/-!
Shallow embedding of the college_backend Django application
(apps `users`, `notices`, `syllabus`) and proofs about its
HOD-succession state machine, subject-code generation, notice audience
derivation, registration flow, permission classes and the notice expiry
sweep.  Each definition is translated from the cited source file; dates
and datetimes are modelled as integers, database tables as lists of rows.
-/

namespace College

/-! ## Notices: `notices/models.py`, `notices/serializers.py` -/

/-- Row of the `Notice` table (notices/models.py lines 6-59).  The
`audience` CharField stores `""` when unset (Django CharField empty
default); `created_at` and `expiry_date` are modelled as integer
timestamps in seconds. -/
structure Notice where
  category : String
  audience : String
  priority : String
  expiry_date : Option Int
  created_at : Int
  deriving Repr, DecidableEq

/-- The `staff_categories` literal of `Notice.save` (notices/models.py
lines 63-67), duplicated verbatim in NoticeCreateSerializer.validate. -/
def staff_categories : List String :=
  ["Staff Meeting", "Invigilation Duty", "Internal Circular", "Timetable Work",
   "Leave / Policy Update", "Faculty Training", "Research Opportunities",
   "Staff Achievements", "Maintenance Notices", "IT & System Updates"]

/-- The `all_users_categories` literal of `Notice.save` (notices/models.py
lines 68-72). -/
def all_users_categories : List String :=
  ["Holiday Announcement", "Exam Timetable", "Events", "Results", "Fee Notices",
   "Emergency Alerts", "Workshops / Seminars", "Scholarship / Grants",
   "Campus News", "Sports / Cultural Updates"]

/-- `Notice.save` audience derivation (notices/models.py lines 61-80):
when `audience` is falsy it is set from the category lookup tables;
Django runs this on every save, at creation and at update alike. -/
def noticeSaveAudience (n : Notice) : Notice :=
  if n.audience = "" then
    if n.category ∈ staff_categories then { n with audience := "staff" }
    else if n.category ∈ all_users_categories then { n with audience := "all" }
    else n
  else n

/-- The audience portion of `NoticeCreateSerializer.validate`
(notices/serializers.py lines 48-68): given the submitted category and
audience (`""` when omitted), returns the audience value placed into
`attrs`. -/
def serializerDeriveAudience (category audience : String) : String :=
  if audience = "" then
    if category ∈ staff_categories then "staff"
    else if category ∈ all_users_categories then "all"
    else audience
  else audience

/-- `delete_old_notices` management command
(notices/management/commands/delete_old_notices.py lines 9-19):
deletes every notice with `created_at < now - 5 minutes` and reports the
number of deleted rows. -/
def deleteOldNotices (now : Int) (ns : List Notice) : List Notice × Nat :=
  let five_minutes_ago := now - 5 * 60
  let deleted := ns.filter (fun n => decide (n.created_at < five_minutes_ago))
  let remaining := ns.filter (fun n => !(decide (n.created_at < five_minutes_ago)))
  (remaining, deleted.length)

/-- C8: audience derivation is idempotent and identical at create and
update time: with no audience set, category "Staff Meeting" yields
"staff", category "Events" yields "all", a category outside both lookup
sets leaves the audience unset; repeated saves never change an
already-derived audience, and the serializer's create-time derivation
agrees with the model's save-time derivation. -/
theorem notice_audience_derivation_idempotent :
    (∀ n : Notice, n.audience = "" → n.category = "Staff Meeting" →
      (noticeSaveAudience n).audience = "staff") ∧
    (∀ n : Notice, n.audience = "" → n.category = "Events" →
      (noticeSaveAudience n).audience = "all") ∧
    (∀ n : Notice, n.audience = "" → n.category ∉ staff_categories →
      n.category ∉ all_users_categories → (noticeSaveAudience n).audience = "") ∧
    (∀ n : Notice, noticeSaveAudience (noticeSaveAudience n) = noticeSaveAudience n) ∧
    (∀ n : Notice, (noticeSaveAudience n).audience =
      serializerDeriveAudience n.category n.audience) := by
  refine ⟨?_, ?_, ?_, ?_, ?_⟩
  · intro n h1 h2
    simp [noticeSaveAudience, h1, h2, staff_categories]
  · intro n h1 h2
    simp [noticeSaveAudience, h1, h2, staff_categories, all_users_categories]
  · intro n h1 h2 h3
    simp [noticeSaveAudience, h1, h2, h3]
  · intro n
    by_cases h1 : n.audience = ""
    · by_cases h2 : n.category ∈ staff_categories
      · simp [noticeSaveAudience, h1, h2]
      · by_cases h3 : n.category ∈ all_users_categories
        · simp [noticeSaveAudience, h1, h2, h3]
        · simp [noticeSaveAudience, h1, h2, h3]
    · simp [noticeSaveAudience, h1]
  · intro n
    by_cases h1 : n.audience = ""
    · by_cases h2 : n.category ∈ staff_categories
      · simp [noticeSaveAudience, serializerDeriveAudience, h1, h2]
      · by_cases h3 : n.category ∈ all_users_categories
        · simp [noticeSaveAudience, serializerDeriveAudience, h1, h2, h3]
        · simp [noticeSaveAudience, serializerDeriveAudience, h1, h2, h3]
    · simp [noticeSaveAudience, serializerDeriveAudience, h1]

/-- Witness for the audience derivation theorem at a concrete notice. -/
theorem notice_audience_derivation_idempotent_witness :
    (noticeSaveAudience ⟨"Staff Meeting", "", "normal", none, 0⟩).audience = "staff" :=
  notice_audience_derivation_idempotent.1 ⟨"Staff Meeting", "", "normal", none, 0⟩ rfl rfl

/-- C10: the expiry sweep deletes exactly the notices whose `created_at`
is more than 5 minutes in the past, regardless of expiry date, priority
or audience; younger notices are kept unchanged, and a second run at the
same instant deletes nothing. -/
theorem notice_expiry_sweep_exact :
    ∀ (now : Int) (ns : List Notice),
      (∀ n ∈ ns, (n ∈ (deleteOldNotices now ns).1 ↔ ¬(n.created_at < now - 5 * 60))) ∧
      deleteOldNotices now ((deleteOldNotices now ns).1) = ((deleteOldNotices now ns).1, 0) := by
  intro now ns
  constructor
  · intro n hn
    simp [deleteOldNotices, List.mem_filter, hn]
  · simp [deleteOldNotices, List.filter_filter]

/-- Witness for the expiry sweep theorem at a concrete notice list. -/
theorem notice_expiry_sweep_exact_witness :
    ((⟨"Events", "all", "normal", none, 0⟩ : Notice) ∈
      (deleteOldNotices 1000 [⟨"Events", "all", "normal", none, 0⟩]).1 ↔
      ¬((0 : Int) < 1000 - 5 * 60)) :=
  (notice_expiry_sweep_exact 1000 [⟨"Events", "all", "normal", none, 0⟩]).1
    ⟨"Events", "all", "normal", none, 0⟩ (by simp)

/-! ## Users and registration: `users/models.py`, `users/serializers.py`,
`users/views.py` -/

/-- Row of the `users` table (users/models.py lines 33-68), restricted to
the fields the claims mention. -/
structure User where
  email : String
  first_name : String
  last_name : String
  role : String
  is_active : Bool
  is_staff : Bool
  deriving Repr, DecidableEq

/-- `User.ROLE_CHOICES` (users/models.py lines 36-40). -/
def roleChoices : List String := ["admin", "staff", "student"]

/-- Rightmost split of a character list at `c`
(the `rsplit(c, 1)` step of `BaseUserManager.normalize_email`):
returns the part before the last occurrence and the part after it. -/
def rsplitLast (cs : List Char) (c : Char) : Option (List Char × List Char) :=
  match cs with
  | [] => none
  | x :: xs =>
    match rsplitLast xs c with
    | some (a, b) => some (x :: a, b)
    | none => if x = c then some ([], xs) else none

/-- `BaseUserManager.normalize_email` (django.contrib.auth.base_user,
called by `UserManager.create_user`, users/models.py line 13): lowercase
the domain part after the last `@` of the stripped email; emails without
`@` are returned unchanged. -/
def normalize_email (email : String) : String :=
  match rsplitLast email.trim.data '@' with
  | none => email
  | some (name, domain) => String.mk (name ++ '@' :: domain.map Char.toLower)

/-- Payload of `POST /api/auth/register/` as consumed by
`UserRegistrationSerializer` (users/serializers.py lines 407-428). -/
structure RegPayload where
  email : String
  first_name : String
  last_name : String
  role : String
  password : String
  password2 : String
  deriving Repr, DecidableEq

/-- Token pair issued by `RefreshToken.for_user` (external simplejwt
collaborator). -/
structure TokenPair where
  refresh : String
  access : String
  deriving Repr, DecidableEq

/-- Combined field-level and object-level validation of
`UserRegistrationSerializer` (users/serializers.py lines 407-437):
email format and password strength are delegated to the external
validator parameters, email uniqueness comes from the model's unique
constraint, `role` must be one of `ROLE_CHOICES`, names are required
CharFields with max_length 100, and `validate` requires the two
passwords to match. -/
def regSerializerValid (emailFormatOk passwordOk : String → Bool)
    (existingEmails : List String) (p : RegPayload) : Bool :=
  emailFormatOk p.email && !(existingEmails.contains p.email) &&
  !(p.first_name == "") && decide (p.first_name.length ≤ 100) &&
  !(p.last_name == "") && decide (p.last_name.length ≤ 100) &&
  roleChoices.contains p.role &&
  passwordOk p.password && (p.password == p.password2)

/-- Response of the registration endpoint. -/
inductive RegResponse where
  | created (user : User) (tokens : TokenPair)
  | badRequest
  deriving Repr, DecidableEq

/-- `register_view` (users/views.py lines 22-58) composed with
`UserRegistrationSerializer.create` (users/serializers.py lines 439-452)
and `UserManager.create_user` (users/models.py lines 9-17).  The view is
decorated with `AllowAny` and takes no caller identity: the `role ==
'admin'` branch of the view (lines 33-42) is `pass`, the permission
check there is commented out.  `create` sets `is_staff=True` when the
requested role is `admin` or `staff`; `create_user` stores the
normalized email and the model default `is_active=True`. -/
def register_view (emailFormatOk passwordOk : String → Bool)
    (issueTokens : User → TokenPair)
    (existingEmails : List String) (p : RegPayload) : RegResponse :=
  if regSerializerValid emailFormatOk passwordOk existingEmails p then
    let is_staff := p.role == "admin" || p.role == "staff"
    let user : User :=
      { email := normalize_email p.email
        first_name := p.first_name
        last_name := p.last_name
        role := p.role
        is_active := true
        is_staff := is_staff }
    .created user (issueTokens user)
  else .badRequest

/-- C9: registration accepts any unauthenticated caller and honours the
caller-supplied role, including `admin`: every valid payload with
`role='admin'` creates a user with role `admin` and `is_staff=true` and
returns a token pair; `register_view` takes no caller identity at all
(`AllowAny`, no authorization check). -/
theorem register_honours_admin_role :
    ∀ (emailFormatOk passwordOk : String → Bool) (issueTokens : User → TokenPair)
      (existingEmails : List String) (p : RegPayload),
      regSerializerValid emailFormatOk passwordOk existingEmails p = true →
      p.role = "admin" →
      ∃ u : User,
        register_view emailFormatOk passwordOk issueTokens existingEmails p =
          .created u (issueTokens u) ∧
        u.role = "admin" ∧ u.is_staff = true ∧ u.is_active = true := by
  intro emailFormatOk passwordOk issueTokens existingEmails p hvalid hrole
  refine ⟨{ email := normalize_email p.email, first_name := p.first_name,
            last_name := p.last_name, role := p.role, is_active := true,
            is_staff := p.role == "admin" || p.role == "staff" }, ?_, hrole, ?_, rfl⟩
  · simp [register_view, hvalid]
  · simp [hrole]

/-- Witness for the registration theorem at a concrete payload. -/
theorem register_honours_admin_role_witness :
    ∃ u : User,
      register_view (fun _ => true) (fun _ => true) (fun _ => ⟨"r", "a"⟩) []
        ⟨"root@college.edu", "Root", "Admin", "admin", "pw12345678", "pw12345678"⟩ =
        .created u ⟨"r", "a"⟩ ∧
      u.role = "admin" ∧ u.is_staff = true ∧ u.is_active = true :=
  register_honours_admin_role (fun _ => true) (fun _ => true) (fun _ => ⟨"r", "a"⟩) []
    ⟨"root@college.edu", "Root", "Admin", "admin", "pw12345678", "pw12345678"⟩
    (by decide) rfl

/-! ## Permission classes on the HOD views (users/views.py lines 383-455).
`IsAuthenticated` and `IsAdminUser` are the rest_framework permission
classes: `IsAuthenticated.has_permission` is
`bool(request.user and request.user.is_authenticated)` and
`IsAdminUser.has_permission` is
`bool(request.user and request.user.is_staff)` — the latter checks the
`is_staff` flag, not the `role` column. -/

/-- Request user as seen by the DRF permission classes. -/
structure Actor where
  is_authenticated : Bool
  is_staff : Bool
  role : String
  deriving Repr, DecidableEq

/-- `rest_framework.permissions.IsAuthenticated.has_permission`. -/
def isAuthenticatedPermission (u : Actor) : Bool := u.is_authenticated

/-- `rest_framework.permissions.IsAdminUser.has_permission`: checks
`request.user.is_staff`. -/
def isAdminUserPermission (u : Actor) : Bool := u.is_staff

/-- `HeadOfDepartmentListCreateView.permission_classes =
[IsAuthenticated, IsAdminUser]` (users/views.py line 389): the request
is permitted when every listed class grants it. -/
def hodListCreatePermitted (u : Actor) : Bool :=
  isAuthenticatedPermission u && isAdminUserPermission u

/-- `HeadOfDepartmentDetailView.permission_classes =
[IsAuthenticated, IsAdminUser]` (users/views.py line 429). -/
def hodDetailPermitted (u : Actor) : Bool :=
  isAuthenticatedPermission u && isAdminUserPermission u

/-- `DepartmentHODView.permission_classes = [IsAuthenticated]`
(users/views.py line 454). -/
def departmentHODReadPermitted (u : Actor) : Bool :=
  isAuthenticatedPermission u

/-- The user record built by `StaffRegistrationSerializer.create`
(users/serializers.py lines 366-404): `create_user(role='staff',
is_staff=True, ...)`. -/
def staffRegistrationUser (email first_name last_name : String) : User :=
  { email := normalize_email email, first_name := first_name,
    last_name := last_name, role := "staff", is_active := true,
    is_staff := true }

/-- C7 counterexample: an authenticated caller whose role is `staff` —
exactly as created by `StaffRegistrationSerializer` (`role='staff'`,
`is_staff=True`) — passes the HOD list/create and detail permission
checks, so the claim that every caller whose role is not `admin`
(including staff) is rejected is false. -/
theorem hod_permission_staff_not_rejected :
    (staffRegistrationUser "s@college.edu" "Sam" "Lee").role ≠ "admin" ∧
    hodListCreatePermitted
      ⟨true, (staffRegistrationUser "s@college.edu" "Sam" "Lee").is_staff,
        (staffRegistrationUser "s@college.edu" "Sam" "Lee").role⟩ = true ∧
    hodDetailPermitted
      ⟨true, (staffRegistrationUser "s@college.edu" "Sam" "Lee").is_staff,
        (staffRegistrationUser "s@college.edu" "Sam" "Lee").role⟩ = true := by
  refine ⟨?_, rfl, rfl⟩
  decide

/-- C7 amended: HOD list/create/update/delete are permitted exactly for
authenticated callers with `is_staff = true` (DRF `IsAdminUser` checks
the `is_staff` flag, which this system sets for staff-role users as
well as admins), and HOD-by-department read is permitted exactly for
authenticated callers. -/
theorem hod_permission_is_staff_based :
    ∀ u : Actor,
      (hodListCreatePermitted u = true ↔ u.is_authenticated = true ∧ u.is_staff = true) ∧
      (hodDetailPermitted u = true ↔ u.is_authenticated = true ∧ u.is_staff = true) ∧
      (departmentHODReadPermitted u = true ↔ u.is_authenticated = true) := by
  intro u
  refine ⟨?_, ?_, ?_⟩ <;>
    simp [hodListCreatePermitted, hodDetailPermitted, departmentHODReadPermitted,
      isAuthenticatedPermission, isAdminUserPermission]

/-! ## Subjects: `syllabus/models.py`, `syllabus/views.py`.
Subject codes are modelled as `List Char` (Python strings compared by
code point); dates do not occur.  The database table is a list of rows
in insertion order. -/

/-- Row of the Subject table (syllabus/models.py lines 16-25). -/
structure SubjectRow where
  name : String
  department : String
  semester : Nat
  subject_code : List Char
  deriving Repr, DecidableEq

/-- `DEPARTMENT_CHOICES` of the syllabus app (syllabus/models.py
lines 4-11). -/
def subjectDepartmentChoices : List String :=
  ["CS", "ECE", "EE", "MECH", "CIVIL", "IT"]

/-- Python `str.upper()` restricted to the characters that occur in
department codes. -/
def pyUpper (s : String) : String := String.mk (s.data.map Char.toUpper)

/-- Python string `<` on code points: lexicographic with
shorter-is-smaller on equal prefixes. -/
def strLtAux : List Char → List Char → Bool
  | [], [] => false
  | [], _ :: _ => true
  | _ :: _, [] => false
  | a :: as, b :: bs => if a < b then true else if b < a then false else strLtAux as bs

/-- Comparison used by `order_by('-subject_code')`. -/
def codeLt (a b : List Char) : Bool := strLtAux a b

/-- `filter(department=d, semester=s)` predicate of
`Subject.generate_subject_code` (syllabus/models.py lines 33-36). -/
def pairPred (d : String) (s : Nat) : SubjectRow → Bool :=
  fun x => x.department == d && x.semester == s

/-- `order_by('-subject_code').first()`: the row with the
lexicographically largest subject_code (codes are unique, so the
maximum is unambiguous). -/
def lastByCode (l : List SubjectRow) : Option SubjectRow :=
  l.foldl (fun acc x =>
    match acc with
    | none => some x
    | some a => if codeLt a.subject_code x.subject_code then some x else some a) none

/-- Python `int()` on the sliced code suffix: succeeds on a nonempty
all-digit string, raises ValueError (modelled as `none`) otherwise —
in particular on the empty slice. -/
def pyIntDigits (cs : List Char) : Option Nat :=
  if cs ≠ [] ∧ cs.all (fun c => c.isDigit) then
    some (cs.foldl (fun n c => 10 * n + (c.toNat - 48)) 0)
  else none

/-- Python format `seq:02d`: two-digit zero padding, wider numbers keep
all their digits. -/
def pad2 (n : Nat) : List Char :=
  if n < 10 then '0' :: (Nat.repr n).data else (Nat.repr n).data

/-- Sequence-number computation of `Subject.generate_subject_code`
(syllabus/models.py lines 32-47): take the row with the largest code
among the same (department, semester), parse the characters after
position `len(dept_code) + 1`, increment; fall back to 1 when the pair
has no rows, the stored code is empty, or the parse raises. -/
def nextSeq (db : List SubjectRow) (department : String) (semester : Nat) : Nat :=
  match lastByCode (db.filter (pairPred department semester)) with
  | some last =>
    if last.subject_code ≠ [] then
      match pyIntDigits (last.subject_code.drop ((pyUpper department).data.length + 1)) with
      | some n => n + 1
      | none => 1
    else 1
  | none => 1

/-- `Subject.generate_subject_code` (syllabus/models.py lines 27-50):
format the code as dept ++ semester ++ zero-padded seq. -/
def generate_subject_code (db : List SubjectRow) (department : String)
    (semester : Nat) : List Char :=
  (pyUpper department).data ++ (Nat.repr semester).data ++
    pad2 (nextSeq db department semester)

/-- Errors surfaced by subject creation. -/
inductive SubjectErr where
  | validationError
  | integrityError400
  deriving Repr, DecidableEq

/-- `SubjectListCreateView.create` (syllabus/views.py lines 27-45)
composed with `SubjectSerializer` (subject_code is read-only, so the
code is always generated) and `Subject.save` (syllabus/models.py lines
52-55).  Serializer validation checks the department and semester
choices, the required name with max_length 150 and the
`unique_together ("name", "department", "semester")` constraint; a
uniqueness violation of the generated subject_code at the database is
caught by the view's `except` and returned as a 400 response with the
transaction rolled back — there is no retry. -/
def subjectCreate (db : List SubjectRow) (name department : String)
    (semester : Nat) : List SubjectRow × Option SubjectErr :=
  if department ∈ subjectDepartmentChoices ∧ 1 ≤ semester ∧ semester ≤ 8 ∧
     name ≠ "" ∧ name.length ≤ 150 then
    if ∃ x ∈ db, x.name = name ∧ x.department = department ∧ x.semester = semester then
      (db, some .validationError)
    else
      if ∃ x ∈ db, x.subject_code = generate_subject_code db department semester then
        (db, some .integrityError400)
      else
        (db ++ [⟨name, department, semester,
                 generate_subject_code db department semester⟩], none)
  else (db, some .validationError)

/-- All department codes of the syllabus app are already uppercase. -/
lemma pyUpper_fixed : ∀ d ∈ subjectDepartmentChoices, pyUpper d = d := by decide

/-- Valid semesters print as a single character. -/
lemma semRepr_len {s : Nat} (h1 : 1 ≤ s) (h2 : s ≤ 8) :
    ((Nat.repr s).data).length = 1 := by
  interval_cases s <;> rfl

/-- Python string comparison ignores an equal prefix. -/
lemma strLtAux_append (p a b : List Char) :
    strLtAux (p ++ a) (p ++ b) = strLtAux a b := by
  induction p with
  | nil => rfl
  | cons c cs ih => simp [strLtAux, lt_irrefl, ih]

/-- Slicing a canonical code after the department and the one-character
semester yields the sequence part. -/
lemma drop_code (d : String) (w tail : List Char) (hw : w.length = 1) :
    (d.data ++ w ++ tail).drop (d.data.length + 1) = tail := by
  exact List.drop_left' (by simp [hw])

/-- Sequence number for a pair with no existing subjects. -/
lemma nextSeq_fresh {db : List SubjectRow} {d : String} {s : Nat}
    (hf : db.filter (pairPred d s) = []) : nextSeq db d s = 1 := by
  unfold nextSeq
  rw [hf]
  rfl

/-- Sequence number when the lexicographically largest code of the pair
is a canonical code with a parseable suffix. -/
lemma nextSeq_of_last {db : List SubjectRow} {d : String} {s : Nat}
    {r : SubjectRow} {cs : List Char} {k : Nat}
    (hd : pyUpper d = d) (hs : ((Nat.repr s).data).length = 1)
    (hlast : lastByCode (db.filter (pairPred d s)) = some r)
    (hcode : r.subject_code = d.data ++ (Nat.repr s).data ++ cs)
    (hparse : pyIntDigits cs = some k) :
    nextSeq db d s = k + 1 := by
  have hcs : cs ≠ [] := by
    intro h
    rw [h] at hparse
    simp [pyIntDigits] at hparse
  unfold nextSeq
  rw [hlast]
  simp only [hcode, hd, drop_code d _ cs hs, hparse]
  rw [if_pos (by simp [hcs])]

/-- The larger of two codes is returned by `order_by` descending plus
`first()`. -/
lemma lastByCode_pair (r1 r2 : SubjectRow)
    (h : codeLt r1.subject_code r2.subject_code = true) :
    lastByCode [r1, r2] = some r2 := by
  unfold lastByCode
  simp [h]

/-- Successful subject creation appends one row carrying the generated
code. -/
lemma subjectCreate_success {db : List SubjectRow} {n d : String} {s : Nat}
    (hv : d ∈ subjectDepartmentChoices ∧ 1 ≤ s ∧ s ≤ 8 ∧ n ≠ "" ∧ n.length ≤ 150)
    (hdup : ¬∃ x ∈ db, x.name = n ∧ x.department = d ∧ x.semester = s)
    (hcol : ¬∃ x ∈ db, x.subject_code = generate_subject_code db d s) :
    subjectCreate db n d s =
      (db ++ [⟨n, d, s, generate_subject_code db d s⟩], none) := by
  unfold subjectCreate
  rw [if_pos hv, if_neg hdup, if_neg hcol]

lemma pad2_one : pad2 1 = ['0', '1'] := by decide

lemma pad2_two : pad2 2 = ['0', '2'] := by decide

lemma pad2_three : pad2 3 = ['0', '3'] := by decide

lemma parse01 : pyIntDigits ['0', '1'] = some 1 := by decide

lemma parse02 : pyIntDigits ['0', '2'] = some 2 := by decide

/-- A pair with no existing subjects gets the code dept ++ sem ++ "01". -/
lemma subjectCreate_fresh_pair {db : List SubjectRow} {d n : String} {s : Nat}
    (hmem : d ∈ subjectDepartmentChoices) (h1 : 1 ≤ s) (h2 : s ≤ 8)
    (hn : n ≠ "") (hn150 : n.length ≤ 150)
    (hpair : ∀ x ∈ db, ¬(x.department = d ∧ x.semester = s))
    (hfresh : ∀ x ∈ db, x.subject_code ≠ d.data ++ (Nat.repr s).data ++ ['0', '1']) :
    subjectCreate db n d s =
      (db ++ [⟨n, d, s, d.data ++ (Nat.repr s).data ++ ['0', '1']⟩], none) := by
  have hd := pyUpper_fixed d hmem
  have hf0 : db.filter (pairPred d s) = [] := by
    rw [List.filter_eq_nil_iff]
    intro x hx
    simp only [pairPred, Bool.and_eq_true, beq_iff_eq, not_and]
    intro hdep hsem
    exact hpair x hx ⟨hdep, hsem⟩
  have hgen : generate_subject_code db d s =
      d.data ++ (Nat.repr s).data ++ ['0', '1'] := by
    unfold generate_subject_code
    rw [nextSeq_fresh hf0, hd, pad2_one]
  have hdup : ¬∃ x ∈ db, x.name = n ∧ x.department = d ∧ x.semester = s := by
    rintro ⟨x, hx, -, hdep, hsem⟩
    exact hpair x hx ⟨hdep, hsem⟩
  have hcol : ¬∃ x ∈ db, x.subject_code = generate_subject_code db d s := by
    rintro ⟨x, hx, hc⟩
    rw [hgen] at hc
    exact hfresh x hx hc
  rw [subjectCreate_success ⟨hmem, h1, h2, hn, hn150⟩ hdup hcol, hgen]

/-- C2: three subjects created with no explicit code in a (department,
semester) pair that has no subjects yet receive the strictly increasing
codes dept ++ sem ++ "01", "02", "03" — each sequence number one more
than the highest existing one for the pair — and creating in any pair
with no existing subjects starts again at seq = 1. -/
theorem subject_code_generation_sequence :
    (∀ (db : List SubjectRow) (d n1 n2 n3 : String) (s : Nat),
      d ∈ subjectDepartmentChoices → 1 ≤ s → s ≤ 8 →
      n1 ≠ "" → n1.length ≤ 150 → n2 ≠ "" → n2.length ≤ 150 →
      n3 ≠ "" → n3.length ≤ 150 → n1 ≠ n2 → n1 ≠ n3 → n2 ≠ n3 →
      (∀ x ∈ db, ¬(x.department = d ∧ x.semester = s)) →
      (∀ x ∈ db, x.subject_code ≠ d.data ++ (Nat.repr s).data ++ ['0', '1'] ∧
        x.subject_code ≠ d.data ++ (Nat.repr s).data ++ ['0', '2'] ∧
        x.subject_code ≠ d.data ++ (Nat.repr s).data ++ ['0', '3']) →
      subjectCreate db n1 d s =
        (db ++ [⟨n1, d, s, d.data ++ (Nat.repr s).data ++ ['0', '1']⟩], none) ∧
      subjectCreate
          (db ++ [⟨n1, d, s, d.data ++ (Nat.repr s).data ++ ['0', '1']⟩]) n2 d s =
        (db ++ [⟨n1, d, s, d.data ++ (Nat.repr s).data ++ ['0', '1']⟩] ++
          [⟨n2, d, s, d.data ++ (Nat.repr s).data ++ ['0', '2']⟩], none) ∧
      subjectCreate
          (db ++ [⟨n1, d, s, d.data ++ (Nat.repr s).data ++ ['0', '1']⟩] ++
            [⟨n2, d, s, d.data ++ (Nat.repr s).data ++ ['0', '2']⟩]) n3 d s =
        (db ++ [⟨n1, d, s, d.data ++ (Nat.repr s).data ++ ['0', '1']⟩] ++
          [⟨n2, d, s, d.data ++ (Nat.repr s).data ++ ['0', '2']⟩] ++
          [⟨n3, d, s, d.data ++ (Nat.repr s).data ++ ['0', '3']⟩], none) ∧
      codeLt (d.data ++ (Nat.repr s).data ++ ['0', '1'])
        (d.data ++ (Nat.repr s).data ++ ['0', '2']) = true ∧
      codeLt (d.data ++ (Nat.repr s).data ++ ['0', '2'])
        (d.data ++ (Nat.repr s).data ++ ['0', '3']) = true) ∧
    (∀ (db : List SubjectRow) (d n : String) (s : Nat),
      d ∈ subjectDepartmentChoices → 1 ≤ s → s ≤ 8 → n ≠ "" → n.length ≤ 150 →
      (∀ x ∈ db, ¬(x.department = d ∧ x.semester = s)) →
      (∀ x ∈ db, x.subject_code ≠ d.data ++ (Nat.repr s).data ++ ['0', '1']) →
      subjectCreate db n d s =
        (db ++ [⟨n, d, s, d.data ++ (Nat.repr s).data ++ ['0', '1']⟩], none)) := by
  constructor
  · intro db d n1 n2 n3 s hmem h1 h2 hn1 hl1 hn2 hl2 hn3 hl3 h12 h13 h23 hpair hfresh
    have hd := pyUpper_fixed d hmem
    have hsl := semRepr_len h1 h2
    have hf0 : db.filter (pairPred d s) = [] := by
      rw [List.filter_eq_nil_iff]
      intro x hx
      simp only [pairPred, Bool.and_eq_true, beq_iff_eq, not_and]
      intro hdep hsem
      exact hpair x hx ⟨hdep, hsem⟩
    have hlt12 : codeLt (d.data ++ (Nat.repr s).data ++ ['0', '1'])
        (d.data ++ (Nat.repr s).data ++ ['0', '2']) = true := by
      unfold codeLt
      rw [strLtAux_append]
      decide
    have hlt23 : codeLt (d.data ++ (Nat.repr s).data ++ ['0', '2'])
        (d.data ++ (Nat.repr s).data ++ ['0', '3']) = true := by
      unfold codeLt
      rw [strLtAux_append]
      decide
    have step1 := subjectCreate_fresh_pair hmem h1 h2 hn1 hl1 hpair
      (fun x hx => (hfresh x hx).1)
    have hf1 : List.filter (pairPred d s)
        (db ++ [(⟨n1, d, s, d.data ++ (Nat.repr s).data ++ ['0', '1']⟩ : SubjectRow)]) =
        [⟨n1, d, s, d.data ++ (Nat.repr s).data ++ ['0', '1']⟩] := by
      rw [List.filter_append, hf0]
      simp [pairPred]
    have hgen1 : generate_subject_code
        (db ++ [⟨n1, d, s, d.data ++ (Nat.repr s).data ++ ['0', '1']⟩]) d s =
        d.data ++ (Nat.repr s).data ++ ['0', '2'] := by
      unfold generate_subject_code
      rw [nextSeq_of_last hd hsl (by rw [hf1]; rfl) rfl parse01, hd, pad2_two]
    have hdup1 : ¬∃ x ∈ db ++ [⟨n1, d, s, d.data ++ (Nat.repr s).data ++ ['0', '1']⟩],
        x.name = n2 ∧ x.department = d ∧ x.semester = s := by
      rintro ⟨x, hx, hname, hdep, hsem⟩
      rcases List.mem_append.mp hx with hx | hx
      · exact hpair x hx ⟨hdep, hsem⟩
      · rw [List.mem_singleton] at hx
        subst hx
        exact h12 hname
    have hcol1 : ¬∃ x ∈ db ++ [⟨n1, d, s, d.data ++ (Nat.repr s).data ++ ['0', '1']⟩],
        x.subject_code = generate_subject_code
          (db ++ [⟨n1, d, s, d.data ++ (Nat.repr s).data ++ ['0', '1']⟩]) d s := by
      rw [hgen1]
      rintro ⟨x, hx, hc⟩
      rcases List.mem_append.mp hx with hx | hx
      · exact (hfresh x hx).2.1 hc
      · rw [List.mem_singleton] at hx
        subst hx
        simp at hc
    have step2 : subjectCreate
        (db ++ [⟨n1, d, s, d.data ++ (Nat.repr s).data ++ ['0', '1']⟩]) n2 d s =
        (db ++ [⟨n1, d, s, d.data ++ (Nat.repr s).data ++ ['0', '1']⟩] ++
          [⟨n2, d, s, d.data ++ (Nat.repr s).data ++ ['0', '2']⟩], none) := by
      rw [subjectCreate_success ⟨hmem, h1, h2, hn2, hl2⟩ hdup1 hcol1, hgen1]
    have hf2 : List.filter (pairPred d s)
        (db ++ [(⟨n1, d, s, d.data ++ (Nat.repr s).data ++ ['0', '1']⟩ : SubjectRow)] ++
          [(⟨n2, d, s, d.data ++ (Nat.repr s).data ++ ['0', '2']⟩ : SubjectRow)]) =
        [⟨n1, d, s, d.data ++ (Nat.repr s).data ++ ['0', '1']⟩,
         ⟨n2, d, s, d.data ++ (Nat.repr s).data ++ ['0', '2']⟩] := by
      rw [List.filter_append, hf1]
      simp [pairPred]
    have hlast2 : lastByCode
        [(⟨n1, d, s, d.data ++ (Nat.repr s).data ++ ['0', '1']⟩ : SubjectRow),
         ⟨n2, d, s, d.data ++ (Nat.repr s).data ++ ['0', '2']⟩] =
        some ⟨n2, d, s, d.data ++ (Nat.repr s).data ++ ['0', '2']⟩ :=
      lastByCode_pair _ _ hlt12
    have hgen2 : generate_subject_code
        (db ++ [⟨n1, d, s, d.data ++ (Nat.repr s).data ++ ['0', '1']⟩] ++
          [⟨n2, d, s, d.data ++ (Nat.repr s).data ++ ['0', '2']⟩]) d s =
        d.data ++ (Nat.repr s).data ++ ['0', '3'] := by
      unfold generate_subject_code
      rw [nextSeq_of_last hd hsl (by rw [hf2]; exact hlast2) rfl parse02, hd, pad2_three]
    have hdup2 : ¬∃ x ∈ db ++ [⟨n1, d, s, d.data ++ (Nat.repr s).data ++ ['0', '1']⟩] ++
        [⟨n2, d, s, d.data ++ (Nat.repr s).data ++ ['0', '2']⟩],
        x.name = n3 ∧ x.department = d ∧ x.semester = s := by
      rintro ⟨x, hx, hname, hdep, hsem⟩
      rcases List.mem_append.mp hx with hx | hx
      · rcases List.mem_append.mp hx with hx | hx
        · exact hpair x hx ⟨hdep, hsem⟩
        · rw [List.mem_singleton] at hx
          subst hx
          exact h13 hname
      · rw [List.mem_singleton] at hx
        subst hx
        exact h23 hname
    have hcol2 : ¬∃ x ∈ db ++ [⟨n1, d, s, d.data ++ (Nat.repr s).data ++ ['0', '1']⟩] ++
        [⟨n2, d, s, d.data ++ (Nat.repr s).data ++ ['0', '2']⟩],
        x.subject_code = generate_subject_code
          (db ++ [⟨n1, d, s, d.data ++ (Nat.repr s).data ++ ['0', '1']⟩] ++
            [⟨n2, d, s, d.data ++ (Nat.repr s).data ++ ['0', '2']⟩]) d s := by
      rw [hgen2]
      rintro ⟨x, hx, hc⟩
      rcases List.mem_append.mp hx with hx | hx
      · rcases List.mem_append.mp hx with hx | hx
        · exact (hfresh x hx).2.2 hc
        · rw [List.mem_singleton] at hx
          subst hx
          simp at hc
      · rw [List.mem_singleton] at hx
        subst hx
        simp at hc
    have step3 : subjectCreate
        (db ++ [⟨n1, d, s, d.data ++ (Nat.repr s).data ++ ['0', '1']⟩] ++
          [⟨n2, d, s, d.data ++ (Nat.repr s).data ++ ['0', '2']⟩]) n3 d s =
        (db ++ [⟨n1, d, s, d.data ++ (Nat.repr s).data ++ ['0', '1']⟩] ++
          [⟨n2, d, s, d.data ++ (Nat.repr s).data ++ ['0', '2']⟩] ++
          [⟨n3, d, s, d.data ++ (Nat.repr s).data ++ ['0', '3']⟩], none) := by
      rw [subjectCreate_success ⟨hmem, h1, h2, hn3, hl3⟩ hdup2 hcol2, hgen2]
    exact ⟨step1, step2, step3, hlt12, hlt23⟩
  · intro db d n s hmem h1 h2 hn hn150 hpair hfresh
    exact subjectCreate_fresh_pair hmem h1 h2 hn hn150 hpair hfresh

/-- Witness for the subject-code theorem: CS semester 1 yields CS101,
CS102, CS103 from an empty table, and a disjoint pair (EE, 2) starts at
EE201. -/
theorem subject_code_generation_sequence_witness :
    (subjectCreate [] "A" "CS" 1 =
      ([⟨"A", "CS", 1, "CS".data ++ (Nat.repr 1).data ++ ['0', '1']⟩], none) ∧
     subjectCreate [⟨"A", "CS", 1, "CS".data ++ (Nat.repr 1).data ++ ['0', '1']⟩]
        "B" "CS" 1 =
      ([⟨"A", "CS", 1, "CS".data ++ (Nat.repr 1).data ++ ['0', '1']⟩] ++
        [⟨"B", "CS", 1, "CS".data ++ (Nat.repr 1).data ++ ['0', '2']⟩], none) ∧
     subjectCreate
        ([⟨"A", "CS", 1, "CS".data ++ (Nat.repr 1).data ++ ['0', '1']⟩] ++
          [⟨"B", "CS", 1, "CS".data ++ (Nat.repr 1).data ++ ['0', '2']⟩]) "C" "CS" 1 =
      ([⟨"A", "CS", 1, "CS".data ++ (Nat.repr 1).data ++ ['0', '1']⟩] ++
        [⟨"B", "CS", 1, "CS".data ++ (Nat.repr 1).data ++ ['0', '2']⟩] ++
        [⟨"C", "CS", 1, "CS".data ++ (Nat.repr 1).data ++ ['0', '3']⟩], none) ∧
     codeLt ("CS".data ++ (Nat.repr 1).data ++ ['0', '1'])
       ("CS".data ++ (Nat.repr 1).data ++ ['0', '2']) = true ∧
     codeLt ("CS".data ++ (Nat.repr 1).data ++ ['0', '2'])
       ("CS".data ++ (Nat.repr 1).data ++ ['0', '3']) = true) ∧
    subjectCreate [] "D" "EE" 2 =
      ([⟨"D", "EE", 2, "EE".data ++ (Nat.repr 2).data ++ ['0', '1']⟩], none) := by
  constructor
  · have := subject_code_generation_sequence.1 [] "CS" "A" "B" "C" 1
      (by decide) (by decide) (by decide) (by decide) (by decide) (by decide)
      (by decide) (by decide) (by decide) (by decide) (by decide) (by decide)
      (by intro x hx; cases hx) (by intro x hx; cases hx)
    simpa using this
  · have := subject_code_generation_sequence.2 [] "EE" "D" 2
      (by decide) (by decide) (by decide) (by decide) (by decide)
      (by intro x hx; cases hx) (by intro x hx; cases hx)
    simpa using this

/-- Subject table in which code widening has produced seqs 99 and 100
for (CS, semester 1): the lexicographically largest code is CS199, so
the generator parses 99 and produces CS1100 — which already exists. -/
def collisionDb : List SubjectRow :=
  [⟨"Algorithms", "CS", 1, "CS199".data⟩, ⟨"Networks", "CS", 1, "CS1100".data⟩]

/-- C6: on a uniqueness violation of the generated subject_code the
creation does not retry with a recomputed code: the view catches the
database error and returns the 400 response with the table unchanged,
surfacing the duplicate-key failure. -/
theorem subject_create_no_retry_on_duplicate :
    generate_subject_code collisionDb "CS" 1 = "CS1100".data ∧
    subjectCreate collisionDb "Databases" "CS" 1 =
      (collisionDb, some .integrityError400) := by
  constructor <;> rfl

/-! ## Head of Department succession: `users/models.py` lines 212-295,
`users/serializers.py` lines 461-545, `users/views.py` lines 383-469. -/

/-- Staff row joined with the flags of its user that the HOD serializer
consults (`staff.user.is_active`, `staff.user.role`). -/
structure StaffRec where
  id : Nat
  userIsActive : Bool
  userRole : String
  deriving Repr, DecidableEq

/-- Row of the `head_of_department` table (users/models.py lines
212-253).  `start_date` is a NOT NULL column modelled as an option so
that the missing-value insert of the department-change path can be
expressed; stored rows never hold `none` there. -/
structure HODRow where
  id : Nat
  staff : Nat
  department : String
  start_date : Option Int
  end_date : Option Int
  is_active : Bool
  additional_responsibilities : Option String
  deriving Repr, DecidableEq

/-- Database state visible to the HOD operations. -/
structure HODState where
  hods : List HODRow
  staffs : List StaffRec
  deriving Repr, DecidableEq

/-- Outcomes of the HOD endpoints other than success. -/
inductive HODErr where
  | validationBadField
  | validationStaffNotUnique
  | validationInactiveStaff
  | validationStaffAlreadyHOD (department : String)
  | validationDeptHasHOD (staffId : Nat)
  | notFound
  | attributeError
  | nameError
  | integrityError
  deriving Repr, DecidableEq

/-- `Staff.DEPARTMENT_CHOICES` (users/models.py lines 154-164), the
choices of `HeadOfDepartment.department`. -/
def hodDepartmentChoices : List String :=
  ["IT", "CS", "EE", "ME", "CE", "ADMIN", "ACCOUNTS", "LIBRARY", "OTHER"]

/-- Deactivation performed inside `HeadOfDepartment.save`
(users/models.py lines 273-277): `update(is_active=False)` on the
active rows of the department; end_date is not touched by this update. -/
def modelDeactivate (dept : String) (hods : List HODRow) : List HODRow :=
  hods.map (fun x => if x.department == dept && x.is_active then
    { x with is_active := false } else x)

/-- Deactivation performed by `HeadOfDepartmentSerializer.create`
(users/serializers.py lines 519-523): `update(is_active=False,
end_date=now)`. -/
def serializerDeactivate (now : Int) (dept : String) (hods : List HODRow) :
    List HODRow :=
  hods.map (fun x => if x.department == dept && x.is_active then
    { x with is_active := false, end_date := some now } else x)

/-- INSERT against the table constraints: NOT NULL `start_date`, the
OneToOneField uniqueness of `staff` (users/models.py lines 218-223) and
the partial unique constraint `unique_active_hod_per_department`
(users/models.py lines 260-266). -/
def dbInsert (hods : List HODRow) (r : HODRow) : Except HODErr (List HODRow) :=
  if r.start_date = none then .error .integrityError
  else if hods.any (fun x => x.id != r.id && x.staff == r.staff) then
    .error .integrityError
  else if r.is_active &&
      hods.any (fun x => x.id != r.id && x.department == r.department && x.is_active) then
    .error .integrityError
  else .ok (hods ++ [r])

/-- UPDATE of the row with id `r.id` against the same constraints. -/
def dbUpdateRow (hods : List HODRow) (r : HODRow) : Except HODErr (List HODRow) :=
  if r.start_date = none then .error .integrityError
  else if hods.any (fun x => x.id != r.id && x.staff == r.staff) then
    .error .integrityError
  else if r.is_active &&
      hods.any (fun x => x.id != r.id && x.department == r.department && x.is_active) then
    .error .integrityError
  else .ok (hods.map (fun x => if x.id == r.id then r else x))

/-- Role correction of `HeadOfDepartment.save` (users/models.py lines
283-286): the staff's user role is forced to `staff`. -/
def hodRoleFix (staffId : Nat) (staffs : List StaffRec) : List StaffRec :=
  staffs.map (fun s =>
    if s.id == staffId && s.userRole != "staff" then { s with userRole := "staff" }
    else s)

/-- Steps of `HeadOfDepartment.save` after the branch-1 deactivation,
on the already-deactivated table `hods1`: (2) an inactive row without
end_date evaluates `timezone.now()`, but users/models.py never imports
`django.utils.timezone` (its imports are only the auth base classes,
`models` and `RegexValidator`), so this raises NameError and the row is
not written; (3) the role fix runs; finally the row itself is written
against the table constraints. -/
def hodModelSaveCore (staffs : List StaffRec) (hods1 : List HODRow) (r : HODRow)
    (isNew : Bool) : HODState × Option HODErr :=
  if r.is_active = false ∧ r.end_date = none then
    (⟨hods1, staffs⟩, some .nameError)
  else
    match (if isNew then dbInsert hods1 r else dbUpdateRow hods1 r) with
    | .ok hods2 => (⟨hods2, hodRoleFix r.staff staffs⟩, none)
    | .error e => (⟨hods1, hodRoleFix r.staff staffs⟩, some e)

/-- `HeadOfDepartment.save` (users/models.py lines 271-288); `isNew` is
`self.pk is None`.  Branch 1: a new active assignment first deactivates
the department's active rows — an update that stays committed even if a
later step fails; the remaining branches follow in
`hodModelSaveCore`. -/
def hodModelSave (st : HODState) (r : HODRow) (isNew : Bool) :
    HODState × Option HODErr :=
  hodModelSaveCore st.staffs
    (if r.is_active && isNew then modelDeactivate r.department st.hods else st.hods)
    r isNew

/-- Payload of `POST /api/auth/hods/`.  `staff` and `start_date` are
required serializer fields; `end_date`, `is_active` and
`additional_responsibilities` are optional with model defaults
true/null (`none` on the optional components models an absent field). -/
structure AppointPayload where
  staff : Nat
  department : String
  start_date : Option Int
  end_date : Option Int
  is_active : Option Bool
  additional_responsibilities : Option String
  deriving Repr, DecidableEq

/-- Autoincrement primary key assigned at insert time. -/
def nextHodId (hods : List HODRow) : Nat :=
  (hods.map (fun x => x.id)).foldr max 0 + 1

/-- `POST /api/auth/hods/`: DRF field validation of
`HeadOfDepartmentSerializer` (PrimaryKeyRelatedField existence, the
UniqueValidator that ModelSerializer attaches to the unique
OneToOneField `staff`, required `start_date`, department choices), then
object-level `validate` (users/serializers.py lines 484-515), then
`create` (lines 517-530) and the model save.  The start_date defaults
of `perform_create` (users/views.py lines 413-418) and `create` are
kept although `start_date` is a required field. -/
def hodAppoint (now : Int) (st : HODState) (p : AppointPayload) :
    HODState × Option HODErr :=
  match st.staffs.find? (fun s => s.id == p.staff) with
  | none => (st, some .validationBadField)
  | some stf =>
    if st.hods.any (fun r => r.staff == p.staff) then
      (st, some .validationStaffNotUnique)
    else if p.start_date = none then (st, some .validationBadField)
    else if ¬(p.department ∈ hodDepartmentChoices) then (st, some .validationBadField)
    else if stf.userIsActive = false then (st, some .validationInactiveStaff)
    else
      match st.hods.find? (fun r => r.staff == p.staff && r.is_active) with
      | some r0 => (st, some (.validationStaffAlreadyHOD r0.department))
      | none =>
        match st.hods.find? (fun r => r.department == p.department && r.is_active) with
        | some r1 => (st, some (.validationDeptHasHOD r1.staff))
        | none =>
          hodModelSave { st with hods := serializerDeactivate now p.department st.hods }
            { id := nextHodId st.hods, staff := p.staff, department := p.department,
              start_date := some (p.start_date.getD now), end_date := p.end_date,
              is_active := p.is_active.getD true,
              additional_responsibilities := p.additional_responsibilities } true

/-- `DELETE /api/auth/hods/<id>/`:
`HeadOfDepartmentDetailView.perform_destroy` (users/views.py lines
441-446): instead of deleting, set `is_active=False`,
`end_date=timezone.now().date()` and save. -/
def hodRetire (now : Int) (st : HODState) (rowId : Nat) : HODState × Option HODErr :=
  match st.hods.find? (fun r => r.id == rowId) with
  | none => (st, some .notFound)
  | some inst =>
    hodModelSave st { inst with is_active := false, end_date := some now } false

/-- Result of the department-HOD read. -/
inductive CurrentHODResult where
  | found (row : HODRow)
  | notFound
  | multipleReturned
  deriving Repr, DecidableEq

/-- `GET /api/auth/departments/<department>/hod/` (users/views.py lines
456-469): `objects.get(department=..., is_active=True)`; DoesNotExist
is mapped to a 404 response. -/
def currentHOD (st : HODState) (dept : String) : CurrentHODResult :=
  match st.hods.filter (fun r => r.department == dept && r.is_active) with
  | [] => .notFound
  | [r] => .found r
  | _ => .multipleReturned

/-- Payload of `PUT/PATCH /api/auth/hods/<id>/`; an outer `none` models
a field absent from `validated_data` (possible on PATCH; PUT requires
`staff`, `department` and `start_date`). -/
structure UpdatePayload where
  staff : Option Nat
  department : Option String
  start_date : Option Int
  end_date : Option (Option Int)
  is_active : Option Bool
  additional_responsibilities : Option (Option String)
  deriving Repr, DecidableEq

/-- Assignment of the validated fields onto the instance done by
`ModelSerializer.update` when the department is unchanged. -/
def applyChanges (inst : HODRow) (sid : Nat) (p : UpdatePayload) : HODRow :=
  { inst with
    staff := sid,
    department := p.department.getD inst.department,
    start_date := match p.start_date with | some v => some v | none => inst.start_date,
    end_date := p.end_date.getD inst.end_date,
    is_active := p.is_active.getD inst.is_active,
    additional_responsibilities :=
      p.additional_responsibilities.getD inst.additional_responsibilities }

/-- `PUT/PATCH /api/auth/hods/<id>/`: lookup, field validation (staff
existence and the UniqueValidator excluding the instance), object-level
`validate` — whose `attrs.get('staff')` is `None` when the field is
omitted, so `staff.user` raises AttributeError —, then
`perform_update` (users/views.py lines 434-439: a false `is_active`
forces `end_date=now`) and `HeadOfDepartmentSerializer.update`
(users/serializers.py lines 532-544): a department change retires the
instance in place and creates a fresh row whose popped `start_date` is
never re-set; otherwise the changes are assigned and saved. -/
def hodUpdate (now : Int) (st : HODState) (rowId : Nat) (p : UpdatePayload) :
    HODState × Option HODErr :=
  match st.hods.find? (fun r => r.id == rowId) with
  | none => (st, some .notFound)
  | some inst =>
    match p.staff with
    | none => (st, some .attributeError)
    | some sid =>
      match st.staffs.find? (fun s => s.id == sid) with
      | none => (st, some .validationBadField)
      | some stf =>
        if st.hods.any (fun r => r.staff == sid && r.id != rowId) then
          (st, some .validationStaffNotUnique)
        else if stf.userIsActive = false then (st, some .validationInactiveStaff)
        else
          match st.hods.find? (fun r => r.staff == sid && r.is_active && r.id != rowId) with
          | some r0 => (st, some (.validationStaffAlreadyHOD r0.department))
          | none =>
            match (match p.department with
                   | some dep =>
                     st.hods.find?
                       (fun (r : HODRow) => r.department == dep && r.is_active && r.id != rowId)
                   | none => none) with
            | some r1 => (st, some (.validationDeptHasHOD r1.staff))
            | none =>
              let p1 := if p.is_active = some false then
                          { p with end_date := some (some now) } else p
              match p.department with
              | some dep =>
                if dep ≠ inst.department then
                  match hodModelSave st
                      { inst with end_date := some now, is_active := false } false with
                  | (st1, some e) => (st1, some e)
                  | (st1, none) =>
                    hodModelSave st1
                      { id := nextHodId st1.hods, staff := sid, department := dep,
                        start_date := none, end_date := p1.end_date.getD none,
                        is_active := p1.is_active.getD true,
                        additional_responsibilities :=
                          p1.additional_responsibilities.getD none } true
                else hodModelSave st (applyChanges inst sid p1) false
              | none => hodModelSave st (applyChanges inst sid p1) false

/-- C5 (evaluation at the failing input): saving a HeadOfDepartment row
with `is_active=False` and no `end_date` does not default the date and
complete — it raises NameError, because users/models.py evaluates
`timezone.now()` without ever importing `django.utils.timezone`; the
row is not written. -/
theorem hod_save_inactive_without_end_date_raises :
    hodModelSave ⟨[], [⟨1, true, "staff"⟩]⟩
        ⟨1, 1, "CS", some 100, none, false, none⟩ true =
      (⟨[], [⟨1, true, "staff"⟩]⟩, some .nameError) := by
  rfl

/-- Initial state of the re-appointment scenario: one staff member with
an active user and no HOD rows. -/
def c3State : HODState := ⟨[], [⟨1, true, "staff"⟩]⟩

/-- C3 counterexample: appoint(staff 1, CS) succeeds and retiring that
appointment succeeds (soft delete keeps the row), but the subsequent
appoint(staff 1, EE) does not succeed as the claim states — the
UniqueValidator on the OneToOneField `staff` rejects it because the
retired row still references staff 1. -/
theorem hod_reappoint_after_retire_fails :
    (hodAppoint 0 c3State ⟨1, "CS", some 0, none, none, none⟩).2 = none ∧
    (hodRetire 5 (hodAppoint 0 c3State ⟨1, "CS", some 0, none, none, none⟩).1 1).2 =
      none ∧
    (hodAppoint 10
      (hodRetire 5 (hodAppoint 0 c3State ⟨1, "CS", some 0, none, none, none⟩).1 1).1
      ⟨1, "EE", some 10, none, none, none⟩).2 = some .validationStaffNotUnique := by
  decide

/-- C3 amended: appoint(staffA, EE) fails with a validation error
whenever staffA already has any HeadOfDepartment row — active (the
still-active CS appointment of the claim) or retired (rows are soft
deleted, so the uniqueness of the OneToOneField `staff` still sees
them).  The error is the staff-field uniqueness error, raised during
field validation before the serializer's already-active-HOD check can
report; the state is unchanged. -/
theorem hod_appoint_fails_when_staff_has_row :
    ∀ (now : Int) (st : HODState) (p : AppointPayload) (stf : StaffRec),
      st.staffs.find? (fun s => s.id == p.staff) = some stf →
      (∃ r ∈ st.hods, r.staff = p.staff) →
      hodAppoint now st p = (st, some .validationStaffNotUnique) := by
  intro now st p stf hfind hex
  have hany : st.hods.any (fun r => r.staff == p.staff) = true := by
    rcases hex with ⟨r, hr, he⟩
    exact List.any_eq_true.mpr ⟨r, hr, by simp [he]⟩
  unfold hodAppoint
  rw [hfind]
  simp [hany]

/-- Witness for the amended C3 theorem: a retired CS row for staff 1
makes appoint(staff 1, EE) fail. -/
theorem hod_appoint_fails_when_staff_has_row_witness :
    hodAppoint 10 ⟨[⟨1, 1, "CS", some 0, some 5, false, none⟩], [⟨1, true, "staff"⟩]⟩
        ⟨1, "EE", some 10, none, none, none⟩ =
      (⟨[⟨1, 1, "CS", some 0, some 5, false, none⟩], [⟨1, true, "staff"⟩]⟩,
        some .validationStaffNotUnique) :=
  hod_appoint_fails_when_staff_has_row 10
    ⟨[⟨1, 1, "CS", some 0, some 5, false, none⟩], [⟨1, true, "staff"⟩]⟩
    ⟨1, "EE", some 10, none, none, none⟩ ⟨1, true, "staff"⟩ (by decide)
    ⟨⟨1, 1, "CS", some 0, some 5, false, none⟩, by decide, rfl⟩

/-! ### The single-active-HOD invariant -/

/-- Number of active HOD rows of a department. -/
def activeCount (dept : String) (hods : List HODRow) : Nat :=
  (hods.filter (fun r => r.department == dept && r.is_active)).length

/-- Intrinsic invariant of the stored table: primary keys are distinct,
and two active rows of one department coincide. -/
def HODInv (hods : List HODRow) : Prop :=
  (hods.map (fun r => r.id)).Nodup ∧
  ∀ r1 ∈ hods, ∀ r2 ∈ hods, r1.is_active = true → r2.is_active = true →
    r1.department = r2.department → r1 = r2

/-- The invariant bounds the number of active rows per department. -/
lemma activeCount_le_one_of_inv {hods : List HODRow} (h : HODInv hods)
    (dept : String) : activeCount dept hods ≤ 1 := by
  obtain ⟨hnd, hu⟩ := h
  have hndL : (hods.filter (fun r => r.department == dept && r.is_active)).Nodup :=
    (List.Nodup.of_map _ hnd).filter _
  unfold activeCount
  rcases hL : hods.filter (fun r => r.department == dept && r.is_active) with
    - | ⟨a, - | ⟨b, t⟩⟩
  · simp [hL]
  · simp [hL]
  · exfalso
    have ha : a ∈ hods.filter (fun r => r.department == dept && r.is_active) := by
      rw [hL]
      exact List.mem_cons_self _ _
    have hb : b ∈ hods.filter (fun r => r.department == dept && r.is_active) := by
      rw [hL]
      exact List.mem_cons_of_mem _ (List.mem_cons_self _ _)
    obtain ⟨haM, haP⟩ := List.mem_filter.mp ha
    obtain ⟨hbM, hbP⟩ := List.mem_filter.mp hb
    simp only [Bool.and_eq_true, beq_iff_eq] at haP hbP
    have hab : a = b := hu a haM b hbM haP.2 hbP.2 (haP.1.trans hbP.1.symm)
    rw [hL] at hndL
    exact (List.nodup_cons.mp hndL).1 (by rw [hab]; exact List.mem_cons_self _ _)

/-- A map that preserves ids and leaves every row it keeps active
untouched preserves the invariant. -/
lemma inv_map_of_id_act {hods : List HODRow} (f : HODRow → HODRow)
    (hid : ∀ x, (f x).id = x.id)
    (hact : ∀ x, (f x).is_active = true → f x = x)
    (h : HODInv hods) : HODInv (hods.map f) := by
  obtain ⟨hnd, hu⟩ := h
  constructor
  · rw [List.map_map]
    have he : ((fun r : HODRow => r.id) ∘ f) = fun r : HODRow => r.id := funext hid
    rw [he]
    exact hnd
  · intro r1 h1 r2 h2 ha1 ha2 hdep
    obtain ⟨x1, hx1, rfl⟩ := List.mem_map.mp h1
    obtain ⟨x2, hx2, rfl⟩ := List.mem_map.mp h2
    have e1 := hact x1 ha1
    have e2 := hact x2 ha2
    rw [e1] at ha1 hdep ⊢
    rw [e2] at ha2 hdep ⊢
    exact hu x1 hx1 x2 hx2 ha1 ha2 hdep

/-- Branch-1 deactivation preserves the invariant. -/
lemma inv_modelDeactivate (dept : String) {hods : List HODRow} (h : HODInv hods) :
    HODInv (modelDeactivate dept hods) := by
  unfold modelDeactivate
  refine inv_map_of_id_act _ ?_ ?_ h
  · intro x
    by_cases hc : (x.department == dept && x.is_active) = true
    · simp [hc]
    · simp [hc]
  · intro x hx
    by_cases hc : (x.department == dept && x.is_active) = true
    · simp [hc] at hx
    · simp [hc]

/-- Serializer-level deactivation preserves the invariant. -/
lemma inv_serializerDeactivate (now : Int) (dept : String) {hods : List HODRow}
    (h : HODInv hods) : HODInv (serializerDeactivate now dept hods) := by
  unfold serializerDeactivate
  refine inv_map_of_id_act _ ?_ ?_ h
  · intro x
    by_cases hc : (x.department == dept && x.is_active) = true
    · simp [hc]
    · simp [hc]
  · intro x hx
    by_cases hc : (x.department == dept && x.is_active) = true
    · simp [hc] at hx
    · simp [hc]

/-- Rows of the deactivated table keep their ids. -/
lemma id_mem_of_serializerDeactivate {x : HODRow} {hods : List HODRow}
    {dept : String} {now : Int} (hx : x ∈ serializerDeactivate now dept hods) :
    ∃ y ∈ hods, x.id = y.id := by
  rw [serializerDeactivate] at hx
  obtain ⟨y, hy, rfl⟩ := List.mem_map.mp hx
  refine ⟨y, hy, ?_⟩
  by_cases hc : (y.department == dept && y.is_active) = true
  · simp [hc]
  · simp [hc]

lemma le_foldr_max (l : List Nat) : ∀ n ∈ l, n ≤ l.foldr max 0 := by
  induction l with
  | nil =>
    intro n hn
    cases hn
  | cons a t ih =>
    intro n hn
    rcases List.mem_cons.mp hn with rfl | hn
    · exact le_max_left _ _
    · exact le_trans (ih n hn) (le_max_right _ _)

/-- The autoincrement id is fresh. -/
lemma nextHodId_not_mem (hods : List HODRow) : ∀ x ∈ hods, x.id ≠ nextHodId hods := by
  intro x hx heq
  have hle : x.id ≤ (hods.map (fun r => r.id)).foldr max 0 :=
    le_foldr_max _ _ (List.mem_map_of_mem _ hx)
  unfold nextHodId at heq
  omega

/-- A successful INSERT of a fresh-id row preserves the invariant. -/
lemma inv_dbInsert {hods hods' : List HODRow} {r : HODRow} (h : HODInv hods)
    (hfresh : ∀ x ∈ hods, x.id ≠ r.id)
    (hok : dbInsert hods r = .ok hods') : HODInv hods' := by
  unfold dbInsert at hok
  split_ifs at hok with h1 h2 h3
  simp only [Except.ok.injEq] at hok
  subst hok
  constructor
  · rw [List.map_append]
    refine List.Nodup.append h.1 (by simp) ?_
    intro n hn1 hn2
    simp only [List.map_cons, List.map_nil, List.mem_singleton] at hn2
    obtain ⟨x, hx, rfl⟩ := List.mem_map.mp hn1
    exact hfresh x hx hn2
  · intro r1 h1m r2 h2m ha1 ha2 hdep
    rcases List.mem_append.mp h1m with hx1 | hx1 <;>
      rcases List.mem_append.mp h2m with hx2 | hx2
    · exact h.2 r1 hx1 r2 hx2 ha1 ha2 hdep
    · rw [List.mem_singleton] at hx2
      subst hx2
      exact absurd (by
        rw [Bool.and_eq_true]
        exact ⟨ha2, List.any_eq_true.mpr ⟨r1, hx1, by
          simp [hfresh r1 hx1, hdep, ha1]⟩⟩) h3
    · rw [List.mem_singleton] at hx1
      subst hx1
      exact absurd (by
        rw [Bool.and_eq_true]
        exact ⟨ha1, List.any_eq_true.mpr ⟨r2, hx2, by
          simp [hfresh r2 hx2, hdep.symm, ha2]⟩⟩) h3
    · rw [List.mem_singleton] at hx1 hx2
      rw [hx1, hx2]

/-- A successful UPDATE preserves the invariant. -/
lemma inv_dbUpdateRow {hods hods' : List HODRow} {r : HODRow} (h : HODInv hods)
    (hok : dbUpdateRow hods r = .ok hods') : HODInv hods' := by
  unfold dbUpdateRow at hok
  split_ifs at hok with h1 h2 h3
  simp only [Except.ok.injEq] at hok
  subst hok
  constructor
  · rw [List.map_map, List.map_congr_left (g := fun r : HODRow => r.id) ?_]
    · exact h.1
    · intro x hx
      by_cases hc : (x.id == r.id) = true
      · have he := beq_iff_eq.mp hc
        simp [Function.comp, hc, he]
      · simp [Function.comp, hc]
  · intro r1 h1m r2 h2m ha1 ha2 hdep
    obtain ⟨x1, hx1, rfl⟩ := List.mem_map.mp h1m
    obtain ⟨x2, hx2, rfl⟩ := List.mem_map.mp h2m
    by_cases hc1 : (x1.id == r.id) = true <;> by_cases hc2 : (x2.id == r.id) = true
    · simp [hc1, hc2]
    · exfalso
      rw [if_pos hc1] at ha1 hdep
      rw [if_neg hc2] at ha2 hdep
      refine h3 ?_
      rw [Bool.and_eq_true]
      refine ⟨ha1, List.any_eq_true.mpr ⟨x2, hx2, ?_⟩⟩
      have hne : x2.id ≠ r.id := by simpa using hc2
      simp [hne, hdep.symm, ha2]
    · exfalso
      rw [if_neg hc1] at ha1 hdep
      rw [if_pos hc2] at ha2 hdep
      refine h3 ?_
      rw [Bool.and_eq_true]
      refine ⟨ha2, List.any_eq_true.mpr ⟨x1, hx1, ?_⟩⟩
      have hne : x1.id ≠ r.id := by simpa using hc1
      simp [hne, hdep, ha1]
    · rw [if_neg hc1] at ha1 hdep ⊢
      rw [if_neg hc2] at ha2 hdep ⊢
      exact h.2 x1 hx1 x2 hx2 ha1 ha2 hdep

/-- The post-deactivation part of the save preserves the invariant. -/
lemma inv_hodModelSaveCore {staffs : List StaffRec} {hods1 : List HODRow}
    {r : HODRow} {isNew : Bool} (h1 : HODInv hods1)
    (hfresh : isNew = true → ∀ x ∈ hods1, x.id ≠ r.id) :
    HODInv (hodModelSaveCore staffs hods1 r isNew).1.hods := by
  unfold hodModelSaveCore
  split
  · exact h1
  · split
    · rename_i hods2 heq
      cases isNew
      · simp only [Bool.false_eq_true, if_false] at heq
        exact inv_dbUpdateRow h1 heq
      · simp only [if_true] at heq
        exact inv_dbInsert h1 (hfresh rfl) heq
    · exact h1

/-- The full model save preserves the invariant when a new row carries a
fresh id. -/
lemma inv_hodModelSave {st : HODState} {r : HODRow} {isNew : Bool}
    (h : HODInv st.hods)
    (hfresh : isNew = true → ∀ x ∈ st.hods, x.id ≠ r.id) :
    HODInv (hodModelSave st r isNew).1.hods := by
  unfold hodModelSave
  by_cases hb : (r.is_active && isNew) = true
  · rw [if_pos hb]
    refine inv_hodModelSaveCore (inv_modelDeactivate _ h) ?_
    intro hN x hx hxid
    rw [modelDeactivate] at hx
    obtain ⟨y, hy, rfl⟩ := List.mem_map.mp hx
    have hid : (if (y.department == r.department && y.is_active) = true then
        { y with is_active := false } else y).id = y.id := by
      by_cases hc : (y.department == r.department && y.is_active) = true
      · simp [hc]
      · simp [hc]
    rw [hid] at hxid
    exact hfresh hN y hy hxid
  · rw [if_neg hb]
    exact inv_hodModelSaveCore h hfresh

/-- Appointment preserves the invariant. -/
lemma inv_hodAppoint (now : Int) (st : HODState) (p : AppointPayload)
    (h : HODInv st.hods) : HODInv (hodAppoint now st p).1.hods := by
  unfold hodAppoint
  repeat' split
  all_goals try exact h
  refine inv_hodModelSave (inv_serializerDeactivate _ _ h) ?_
  intro _ x hx hxid
  obtain ⟨y, hy, hid⟩ := id_mem_of_serializerDeactivate hx
  rw [hid] at hxid
  exact nextHodId_not_mem st.hods y hy hxid

/-- Retirement preserves the invariant. -/
lemma inv_hodRetire (now : Int) (st : HODState) (rowId : Nat)
    (h : HODInv st.hods) : HODInv (hodRetire now st rowId).1.hods := by
  unfold hodRetire
  split
  · exact h
  · exact inv_hodModelSave h (fun hc => absurd hc (by decide))

/-- Update preserves the invariant. -/
lemma inv_hodUpdate (now : Int) (st : HODState) (rowId : Nat) (p : UpdatePayload)
    (h : HODInv st.hods) : HODInv (hodUpdate now st rowId p).1.hods := by
  unfold hodUpdate
  repeat' split
  all_goals try exact h
  all_goals try exact inv_hodModelSave h (fun hc => absurd hc (by decide))
  all_goals
    first
      | (rename_i st1 e heq
         have hp : (hodModelSave st _ false).1 = st1 := congrArg Prod.fst heq
         rw [← hp]
         exact inv_hodModelSave h (fun hc => Bool.noConfusion hc))
      | (rename_i st1 heq
         have hp : (hodModelSave st _ false).1 = st1 := congrArg Prod.fst heq
         rw [← hp]
         refine inv_hodModelSave (inv_hodModelSave h (fun hc => Bool.noConfusion hc)) ?_
         intro _ x hx hxid
         exact nextHodId_not_mem _ x hx hxid)

/-- Combined operation alphabet of the HOD endpoints. -/
inductive HODOp where
  | appoint (now : Int) (p : AppointPayload)
  | update (now : Int) (rowId : Nat) (p : UpdatePayload)
  | retire (now : Int) (rowId : Nat)
  deriving Repr, DecidableEq

/-- State reached after one HOD endpoint call. -/
def applyHODOp (st : HODState) (op : HODOp) : HODState :=
  match op with
  | .appoint now p => (hodAppoint now st p).1
  | .update now rowId p => (hodUpdate now st rowId p).1
  | .retire now rowId => (hodRetire now st rowId).1

/-- State reached after a sequence of HOD endpoint calls. -/
def applyHODOps (st : HODState) (ops : List HODOp) : HODState :=
  ops.foldl applyHODOp st

lemma inv_applyHODOp (st : HODState) (op : HODOp) (h : HODInv st.hods) :
    HODInv (applyHODOp st op).hods := by
  cases op with
  | appoint now p => exact inv_hodAppoint now st p h
  | update now rowId p => exact inv_hodUpdate now st rowId p h
  | retire now rowId => exact inv_hodRetire now st rowId h

lemma inv_applyHODOps (ops : List HODOp) :
    ∀ st : HODState, HODInv st.hods → HODInv (applyHODOps st ops).hods := by
  induction ops with
  | nil =>
    intro st h
    exact h
  | cons op t ih =>
    intro st h
    exact ih _ (inv_applyHODOp st op h)

/-- C1: across every sequence of HOD appoint/update/retire calls
started from a table satisfying the invariant, at most one
HeadOfDepartment row per department has is_active=true at every
observed point; and a direct save of a new active row deactivates every
previously active row of that department. -/
theorem hod_at_most_one_active_per_department :
    (∀ (st : HODState) (ops : List HODOp) (dept : String),
      HODInv st.hods → activeCount dept (applyHODOps st ops).hods ≤ 1) ∧
    (∀ (st : HODState) (r : HODRow), r.is_active = true →
      (hodModelSave st r true).2 = none →
      ∀ x ∈ (hodModelSave st r true).1.hods,
        x.id ≠ r.id → x.department = r.department → x.is_active = false) := by
  constructor
  · intro st ops dept h
    exact activeCount_le_one_of_inv (inv_applyHODOps ops st h) dept
  · intro st r hact hsucc x hx hid hdep
    have hb : (r.is_active && true) = true := by simp [hact]
    unfold hodModelSave at hsucc hx
    rw [if_pos hb] at hsucc hx
    unfold hodModelSaveCore at hsucc hx
    have hb2 : ¬(r.is_active = false ∧ r.end_date = none) := by simp [hact]
    rw [if_neg hb2] at hsucc hx
    rw [if_pos rfl] at hsucc hx
    rcases hres : dbInsert (modelDeactivate r.department st.hods) r with e | hods2
    · rw [hres] at hsucc
      simp at hsucc
    · rw [hres] at hx
      simp only at hx
      unfold dbInsert at hres
      split_ifs at hres with g1 g2 g3
      simp only [Except.ok.injEq] at hres
      subst hres
      rcases List.mem_append.mp hx with hx | hx
      · rw [modelDeactivate] at hx
        obtain ⟨y, hy, rfl⟩ := List.mem_map.mp hx
        by_cases hc : (y.department == r.department && y.is_active) = true
        · simp [hc]
        · rw [if_neg hc] at hdep ⊢
          rcases Bool.eq_false_or_eq_true y.is_active with hyt | hyf
          · exact absurd (by simp [hdep, hyt]) hc
          · exact hyf
      · rw [List.mem_singleton] at hx
        exact absurd (by rw [hx]) hid

/-- Witness for the invariant theorem at a concrete appoint sequence. -/
theorem hod_at_most_one_active_per_department_witness :
    activeCount "CS"
      (applyHODOps ⟨[], [⟨1, true, "staff"⟩]⟩
        [.appoint 0 ⟨1, "CS", some 0, none, none, none⟩]).hods ≤ 1 :=
  hod_at_most_one_active_per_department.1 ⟨[], [⟨1, true, "staff"⟩]⟩
    [.appoint 0 ⟨1, "CS", some 0, none, none, none⟩] "CS" (by constructor <;> simp)

/-- Evaluation of the model save on an existing deactivated row with an
end date: the row is updated in place and nothing is raised. -/
lemma hodModelSave_retire (st : HODState) (r : HODRow)
    (hact : r.is_active = false) (hend : r.end_date ≠ none)
    (hsd : ¬(r.start_date = none))
    (hstaffu : ¬(st.hods.any fun x => x.id != r.id && x.staff == r.staff) = true) :
    hodModelSave st r false =
      (⟨st.hods.map (fun x => if x.id == r.id then r else x),
        hodRoleFix r.staff st.staffs⟩, none) := by
  unfold hodModelSave
  have c1 : ¬((r.is_active && false) = true) := by simp
  rw [if_neg c1]
  unfold hodModelSaveCore
  have c2 : ¬(r.is_active = false ∧ r.end_date = none) := by
    rintro ⟨-, h2⟩
    exact hend h2
  rw [if_neg c2]
  have c3 : ¬((false : Bool) = true) := by simp
  rw [if_neg c3]
  unfold dbUpdateRow
  rw [if_neg hsd, if_neg hstaffu]
  have c4 : ¬((r.is_active && st.hods.any fun x =>
      x.id != r.id && x.department == r.department && x.is_active) = true) := by
    simp [hact]
  rw [if_neg c4]

/-- C4: retiring a HOD record never removes the row: the table keeps
its length, the row survives with is_active=false and end_date set to
the current date and every other field unchanged, all other rows are
untouched, and a subsequent department read returns NotFound when no
other active row of that department exists. -/
theorem hod_retire_soft_delete :
    ∀ (now : Int) (st : HODState) (rowId : Nat) (inst : HODRow),
      st.hods.find? (fun r => r.id == rowId) = some inst →
      inst.start_date ≠ none →
      (∀ x ∈ st.hods, x.id ≠ inst.id → x.staff ≠ inst.staff) →
      (hodRetire now st rowId).2 = none ∧
      (hodRetire now st rowId).1.hods =
        st.hods.map (fun x => if x.id == inst.id then
          { inst with is_active := false, end_date := some now } else x) ∧
      (hodRetire now st rowId).1.hods.length = st.hods.length ∧
      ({ inst with is_active := false, end_date := some now } : HODRow) ∈
        (hodRetire now st rowId).1.hods ∧
      (∀ x ∈ st.hods, x.id ≠ inst.id → x ∈ (hodRetire now st rowId).1.hods) ∧
      ((∀ x ∈ st.hods, x.id ≠ inst.id →
          ¬(x.department = inst.department ∧ x.is_active = true)) →
        currentHOD (hodRetire now st rowId).1 inst.department = .notFound) := by
  intro now st rowId inst hfind hsd hstaff
  have hmem : inst ∈ st.hods := List.mem_of_find?_eq_some hfind
  have hanyfalse : ¬(st.hods.any fun x =>
      x.id != inst.id && x.staff == inst.staff) = true := by
    intro hany
    obtain ⟨x, hxm, hxp⟩ := List.any_eq_true.mp hany
    simp only [Bool.and_eq_true, bne_iff_ne, beq_iff_eq] at hxp
    exact hstaff x hxm hxp.1 hxp.2
  have hret : hodRetire now st rowId =
      (⟨st.hods.map (fun x => if x.id == inst.id then
          { inst with is_active := false, end_date := some now } else x),
        hodRoleFix inst.staff st.staffs⟩, none) := by
    unfold hodRetire
    rw [hfind]
    exact hodModelSave_retire st _ rfl (by simp) hsd hanyfalse
  refine ⟨by rw [hret], by rw [hret], ?_, ?_, ?_, ?_⟩
  · rw [hret]
    simp
  · rw [hret]
    refine List.mem_map.mpr ⟨inst, hmem, ?_⟩
    simp
  · intro x hx hne
    rw [hret]
    refine List.mem_map.mpr ⟨x, hx, ?_⟩
    rw [if_neg (by simp [hne])]
  · intro hother
    rw [hret]
    unfold currentHOD
    have hfe : (st.hods.map (fun x => if x.id == inst.id then
        { inst with is_active := false, end_date := some now } else x)).filter
        (fun r => r.department == inst.department && r.is_active) = [] := by
      rw [List.filter_eq_nil_iff]
      intro a ha
      obtain ⟨y, hy, rfl⟩ := List.mem_map.mp ha
      by_cases hc : (y.id == inst.id) = true
      · rw [if_pos hc]
        simp
      · rw [if_neg hc]
        have hyne : y.id ≠ inst.id := by simpa using hc
        intro hcond
        rw [Bool.and_eq_true, beq_iff_eq] at hcond
        exact hother y hy hyne ⟨hcond.1, hcond.2⟩
    rw [hfe]

/-- Concrete state for the retire witness: one active CS HOD row. -/
def c4State : HODState := ⟨[⟨1, 1, "CS", some 0, none, true, none⟩], [⟨1, true, "staff"⟩]⟩

/-- Witness for the soft-delete theorem at the concrete state. -/
theorem hod_retire_soft_delete_witness :
    (hodRetire 5 c4State 1).2 = none ∧
    currentHOD (hodRetire 5 c4State 1).1 "CS" = .notFound := by
  have h := hod_retire_soft_delete 5 c4State 1 ⟨1, 1, "CS", some 0, none, true, none⟩
    (by decide) (by decide) (by decide)
  exact ⟨h.1, h.2.2.2.2.2 (by decide)⟩

end College
